import Mathlib

/-
Verification development for the MEGHTOSH virtualized grid viewer
(src/app.js and src/data.js).

Modelling conventions:
- JavaScript numbers are modelled as exact rationals, since every claim under
  scrutiny concerns exact arithmetic identities on pixel coordinates;
  grid coordinates and item ids are modelled as integers.
- The DOM element registry (a Map from item-id strings to elements) is
  modelled as the insertion-ordered list of its integer keys, matching
  Map iteration order; the elements themselves carry no information the
  claims depend on.
- Math.floor on a rational is Rat.floor, the JS remainder a % b is Int.tmod,
  Math.floor(a / b) on integers is Int.fdiv.
- The random type/src fields of generated items play no role in any claim
  and are omitted from the item record.
-/

namespace MG

/-- BUFFER_SIZE constant from app.js line 6: 3 row/column margin. -/
def BUFFER_SIZE : ℚ := 3

/-- MAX_DOM_NODES constant from app.js line 7: cap on live DOM nodes. -/
def MAX_DOM_NODES : Nat := 500

/-- LOAD_THRESHOLD constant from app.js line 34: load more when within 2000px. -/
def LOAD_THRESHOLD : ℚ := 2000

/-- GRID_COLUMNS constant from data.js line 4. -/
def GRID_COLUMNS : Nat := 50

/-- ITEM_SIZE constant from data.js line 5: cell size in world pixels. -/
def ITEM_SIZE : ℚ := 200

/-- Math.ceil(a / b) for natural numbers (used for row counts). -/
def natCeilDiv (a b : Nat) : Nat := (a + b - 1) / b

/-- A grid item record as produced by data.js (id, x, y, column, row);
the randomized type/src/topic fields are irrelevant to every claim and
are omitted. -/
structure Item where
  id : Int
  x : ℚ
  y : ℚ
  column : Int
  row : Int
deriving DecidableEq, Repr

/-- The mutable `state` object of app.js lines 14-27. -/
structure ViewState where
  panX : ℚ
  panY : ℚ
  zoom : ℚ
  isDragging : Bool
  dragStartX : ℚ
  dragStartY : ℚ
  dragStartPanX : ℚ
  dragStartPanY : ℚ
  viewportWidth : ℚ
  viewportHeight : ℚ
  canvasWidth : ℚ
  canvasHeight : ℚ
deriving DecidableEq, Repr

/-- A world-space bounding box as returned by calculateViewportBounds. -/
structure ViewBounds where
  left : ℚ
  top : ℚ
  right : ℚ
  bottom : ℚ
deriving DecidableEq, Repr

/-- Canvas dimensions as returned by calculateCanvasDimensions. -/
structure CanvasDims where
  width : ℚ
  height : ℚ
deriving DecidableEq, Repr

/-- screenToWorld from app.js lines 183-187. -/
def screenToWorld (v : ViewState) (screenX screenY : ℚ) : ℚ × ℚ :=
  ((screenX - v.panX) / v.zoom, (screenY - v.panY) / v.zoom)

/-- gridToWorld from app.js lines 192-197. -/
def gridToWorld (column row : Int) : ℚ × ℚ :=
  ((column : ℚ) * ITEM_SIZE, (row : ℚ) * ITEM_SIZE)

/-- calculateViewportBounds from app.js lines 157-178: project the four
viewport corners to world space, box them, and expand by the buffer. -/
def calculateViewportBounds (v : ViewState) : ViewBounds :=
  let topLeft := screenToWorld v 0 0
  let topRight := screenToWorld v v.viewportWidth 0
  let bottomLeft := screenToWorld v 0 v.viewportHeight
  let bottomRight := screenToWorld v v.viewportWidth v.viewportHeight
  let left := min topLeft.1 bottomLeft.1
  let right := max topRight.1 bottomRight.1
  let top := min topLeft.2 topRight.2
  let bottom := max bottomLeft.2 bottomRight.2
  let buffer := BUFFER_SIZE * ITEM_SIZE
  { left := left - buffer, top := top - buffer,
    right := right + buffer, bottom := bottom + buffer }

/-- itemIntersectsViewport from app.js lines 206-218: rectangle overlap test
between the item cell square and the bounds. -/
def itemIntersectsViewport (item : Item) (bounds : ViewBounds) : Bool :=
  let itemLeft := item.x
  let itemRight := item.x + ITEM_SIZE
  let itemTop := item.y
  let itemBottom := item.y + ITEM_SIZE
  !(decide (itemRight < bounds.left) || decide (itemLeft > bounds.right) ||
    decide (itemBottom < bounds.top) || decide (itemTop > bounds.bottom))

/-- findVisibleItems from app.js lines 223-234: linear scan of the store. -/
def findVisibleItems (items : List Item) (v : ViewState) : List Item :=
  let bounds := calculateViewportBounds v
  items.filter (fun item => itemIntersectsViewport item bounds)

/-- calculateCanvasDimensions from app.js lines 41-51: logical extent of the
grid derived from the store length. -/
def calculateCanvasDimensions (items : List Item) : CanvasDims :=
  if items.length = 0 then { width := 0, height := 0 }
  else
    { width := (GRID_COLUMNS : ℚ) * ITEM_SIZE,
      height := (natCeilDiv items.length GRID_COLUMNS : ℚ) * ITEM_SIZE }

/-- The camera mutation performed by handleWheel, app.js lines 114-135:
clamp the new zoom to the range from 0.1 to 5.0, then recompute pan so the
world point under the cursor stays fixed. mouseX and mouseY are the
viewport-relative cursor coordinates. -/
def zoomAt (v : ViewState) (mouseX mouseY deltaY : ℚ) : ViewState :=
  let zoomSensitivity : ℚ := 0.1
  let zoomDelta := -deltaY * zoomSensitivity / 1000
  let newZoom := max 0.1 (min 5.0 (v.zoom + zoomDelta))
  let worldX := (mouseX - v.panX) / v.zoom
  let worldY := (mouseY - v.panY) / v.zoom
  { v with
    zoom := newZoom,
    panX := mouseX - worldX * newZoom,
    panY := mouseY - worldY * newZoom }

/-- The four append directions of data.js addMoreItems. -/
inductive Direction where
  | right
  | bottom
  | left
  | top
deriving DecidableEq, Repr

/-- generateItemData from data.js lines 41-88.  Returns the generated item
list together with the updated globalItemIdCounter (the JS function mutates
the counter to baseId + totalItems - 1 as a side effect).  Ids are
baseId + i; grid position comes from globalIndex = startIndex + i via
row = Math.floor(globalIndex / GRID_COLUMNS) and
column = globalIndex % GRID_COLUMNS (the JS remainder). -/
def generateItemData (totalItems : Nat) (startId : Int) (startIndex : Int) :
    List Item × Int :=
  ((List.range totalItems).map (fun (i : Nat) =>
    let globalIndex : Int := startIndex + (i : Int)
    let row := globalIndex.fdiv (GRID_COLUMNS : Int)
    let column := globalIndex.tmod (GRID_COLUMNS : Int)
    { id := startId + (i : Int)
      x := (column : ℚ) * ITEM_SIZE
      y := (row : ℚ) * ITEM_SIZE
      column := column
      row := row }),
   startId + (totalItems : Int) - 1)

/-- The data.js module state: ITEM_DATA, globalItemIdCounter, usingRealData. -/
structure Store where
  itemData : List Item
  counter : Int
  usingRealData : Bool
deriving DecidableEq, Repr

/-- Math.min over the x fields of a list of items (data.js line 177).
The JS spread form gives Infinity on an empty array; addMoreItems is only
reached through checkBoundariesAndLoad, which guards against empty stores,
so the empty case is given the junk value 0. -/
def minXOf (items : List Item) : ℚ :=
  match items with
  | [] => 0
  | it :: rest => rest.foldl (fun m i => min m i.x) it.x

/-- Math.min over the y fields of a list of items (data.js lines 189, 197). -/
def minYOf (items : List Item) : ℚ :=
  match items with
  | [] => 0
  | it :: rest => rest.foldl (fun m i => min m i.y) it.y

/-- Indexed map modelling the JS forEach((item, idx) => ...) repositioning
loops of addMoreItems.  Structural recursion so proofs can unfold it. -/
def mapWithIndex (f : Nat → Item → Item) : Nat → List Item → List Item
  | _, [] => []
  | i, it :: rest => f i it :: mapWithIndex f (i + 1) rest

/-- addMoreItems from data.js lines 159-219.  Returns the updated store and
the list of newly created items.  For right/bottom the new items keep their
generated grid positions; for left/top each new item is repositioned to
tile before the existing minimum extent, with column/row recomputed from
the new x/y by Math.floor division.  The minimum over ITEM_DATA is taken
before ITEM_DATA is reassigned, so it refers to the pre-existing items. -/
def addMoreItems (count : Nat) (direction : Direction) (s : Store) :
    Store × List Item :=
  if s.usingRealData then (s, [])
  else
    let currentLength := s.itemData.length
    let currentRows := natCeilDiv currentLength GRID_COLUMNS
    match direction with
    | .right | .bottom =>
      let gen := generateItemData count (s.counter + 1) (currentLength : Int)
      ({ s with itemData := s.itemData ++ gen.1, counter := gen.2 }, gen.1)
    | .left =>
      let minXv := minXOf s.itemData
      let minYv := minYOf s.itemData
      let newCols := natCeilDiv count currentRows
      let gen := generateItemData count (s.counter + 1) (-(count : Int))
      let newItems := mapWithIndex (fun idx it =>
        let col := idx % newCols
        let row := idx / newCols
        let newX := minXv - (((newCols - col : Nat) : ℚ) * ITEM_SIZE)
        let newY := (((minYv / ITEM_SIZE).floor + (row : Int) : Int) : ℚ) * ITEM_SIZE
        { it with
          x := newX
          y := newY
          column := (newX / ITEM_SIZE).floor
          row := (newY / ITEM_SIZE).floor }) 0 gen.1
      ({ s with itemData := newItems ++ s.itemData, counter := gen.2 }, newItems)
    | .top =>
      let minYv := minYOf s.itemData
      let newRows := natCeilDiv count GRID_COLUMNS
      let gen := generateItemData count (s.counter + 1) (-(count : Int))
      let newItems := mapWithIndex (fun idx it =>
        let col := idx % GRID_COLUMNS
        let row := idx / GRID_COLUMNS
        let newX := ((col : Int) : ℚ) * ITEM_SIZE
        let newY := minYv - (((newRows - row : Nat) : ℚ) * ITEM_SIZE)
        { it with
          x := newX
          y := newY
          column := (col : Int)
          row := (newY / ITEM_SIZE).floor }) 0 gen.1
      ({ s with itemData := newItems ++ s.itemData, counter := gen.2 }, newItems)

/-- The initial store of data.js line 151:
ITEM_DATA = generateItemData(2000, selectedTopic, 1, 0), with the id
counter left at 2000 and synthetic data in use. -/
def initialStore : Store :=
  { itemData := (generateItemData 2000 1 0).1
    counter := (generateItemData 2000 1 0).2
    usingRealData := false }

/-- Insert one (id, squared distance) pair into a list sorted by descending
distance, after all entries with a strictly greater or equal distance. -/
def insertByDistDesc (p : Int × ℚ) : List (Int × ℚ) → List (Int × ℚ)
  | [] => [p]
  | q :: rest => if q.2 < p.2 then p :: q :: rest else q :: insertByDistDesc p rest

/-- Stable descending sort by distance, modelling the JS stable
itemDistances.sort((a, b) => b.distance - a.distance) of app.js line 453. -/
def sortByDistDesc : List (Int × ℚ) → List (Int × ℚ)
  | [] => []
  | p :: rest => insertByDistDesc p (sortByDistDesc rest)

/-- The per-id distance measurement of the memory-management block of
syncDOM, app.js lines 439-450: a live id that is found in the store and is
not in the visible set is paired with its distance from the bounds center;
other ids yield no entry.  The JS code measures Math.sqrt of the sum of
squares; the squared distance is recorded here instead, which yields the
same sort order since sqrt is strictly monotone. -/
def distanceEntry (items : List Item) (visibleItemIds : List Int)
    (centerX centerY : ℚ) (itemId : Int) : Option (Int × ℚ) :=
  match items.find? (fun i => i.id == itemId) with
  | none => none
  | some item =>
    if visibleItemIds.contains item.id then none
    else
      some (itemId,
        (item.x + ITEM_SIZE / 2 - centerX) * (item.x + ITEM_SIZE / 2 - centerX) +
        (item.y + ITEM_SIZE / 2 - centerY) * (item.y + ITEM_SIZE / 2 - centerY))

/-- The memory-management block of syncDOM, app.js lines 431-464, as a
function of the values it reads at that point: the item store, the buffered
bounds, the visible-id set and the registry after the removal step.  When
the registry exceeds MAX_DOM_NODES, the farthest
(registry.length - MAX_DOM_NODES) measured entries are removed. -/
def evictStep (items : List Item) (bounds : ViewBounds)
    (visibleItemIds : List Int) (registry : List Int) : List Int :=
  if registry.length > MAX_DOM_NODES then
    let centerX := (bounds.left + bounds.right) / 2
    let centerY := (bounds.top + bounds.bottom) / 2
    let itemDistances :=
      registry.filterMap (distanceEntry items visibleItemIds centerX centerY)
    let sorted := sortByDistDesc itemDistances
    let itemsToRemoveCount := registry.length - MAX_DOM_NODES
    let toRemove := (sorted.take itemsToRemoveCount).map (fun p => p.1)
    registry.filter (fun itemId => !(toRemove.contains itemId))
  else registry

/-- The removal step of syncDOM, app.js lines 414-429: every live id not in
the visible set is removed from the registry. -/
def removeStep (visibleItemIds : List Int) (registry : List Int) : List Int :=
  registry.filter (fun itemId => visibleItemIds.contains itemId)

/-- The addition step of syncDOM, app.js lines 466-476: every visible item
whose id is not yet live is appended to the registry, in visible order. -/
def addStep (visibleItems : List Item) (registry : List Int) : List Int :=
  visibleItems.foldl
    (fun reg item => if reg.contains item.id then reg else reg ++ [item.id])
    registry

/-- syncDOM from app.js lines 410-483, at the level of the registry key
set: remove the no-longer-visible, evict under memory pressure, then add
the newly visible.  updateItemPositions and manageVideoPlayback touch only
element styles and playback, not the registry, and are not modelled. -/
def syncDOM (items : List Item) (v : ViewState) (registry : List Int) :
    List Int :=
  let visibleItems := findVisibleItems items v
  let visibleItemIds := visibleItems.map (fun item => item.id)
  let afterRemove := removeStep visibleItemIds registry
  let afterEvict :=
    evictStep items (calculateViewportBounds v) visibleItemIds afterRemove
  addStep visibleItems afterEvict

/-- The whole mutable state of the running app: the view state, the data
module state, the in-flight guard isLoadingMore, whether the global loader
function window.addMoreItemsToMEGHTOSH is installed, the registry of live
element ids, and the pending render-frame flag (renderAnimationFrame is
modelled as the boolean renderPending).  appendLog and renderRequests are
instrumentation: appendLog records each invocation of the item-store append
operation in order, renderRequests counts calls to scheduleRender. -/
structure AppState where
  view : ViewState
  store : Store
  isLoadingMore : Bool
  loaderPresent : Bool
  registry : List Int
  renderPending : Bool
  appendLog : List Direction
  renderRequests : Nat
deriving DecidableEq, Repr

/-- scheduleRender from app.js lines 703-707: request a frame only when none
is pending.  The renderRequests counter is instrumentation recording that
the function was invoked. -/
def scheduleRender (s : AppState) : AppState :=
  let s1 := { s with renderRequests := s.renderRequests + 1 }
  if s1.renderPending then s1 else { s1 with renderPending := true }

/-- updateCanvasSize from app.js lines 685-692: recompute the logical canvas
extent from the current store. -/
def updateCanvasSize (s : AppState) : AppState :=
  let dims := calculateCanvasDimensions s.store.itemData
  { s with view := { s.view with canvasWidth := dims.width, canvasHeight := dims.height } }

/-- The call window.addMoreItemsToMEGHTOSH(2000, direction) made by
checkBoundariesAndLoad: run the item-store append operation and record the
invocation in the append log. -/
def doAppend (s : AppState) (direction : Direction) : AppState :=
  { s with
    store := (addMoreItems 2000 direction s.store).1
    appendLog := s.appendLog ++ [direction] }

/-- The prefix of one branch of checkBoundariesAndLoad, app.js lines
644-647: set the in-flight guard, and invoke the append operation when the
loader function is installed.  The state after beginLoad is the in-flight
state, before the canvas resize and guard reset. -/
def beginLoad (s : AppState) (direction : Direction) : AppState :=
  let s1 := { s with isLoadingMore := true }
  if s1.loaderPresent then doAppend s1 direction else s1

/-- The suffix of one branch of checkBoundariesAndLoad, app.js lines
648-650: when the loader function is installed, resize the canvas, clear
the in-flight guard and schedule a render; otherwise nothing more happens
(in particular the guard is left set). -/
def finishLoad (s : AppState) : AppState :=
  if s.loaderPresent then
    scheduleRender { (updateCanvasSize s) with isLoadingMore := false }
  else s

/-- One full branch body of checkBoundariesAndLoad (each of the four
branches in app.js lines 643-679 is this code with its direction). -/
def loadInDirection (s : AppState) (direction : Direction) : AppState :=
  finishLoad (beginLoad s direction)

/-- The boundary-selection logic of checkBoundariesAndLoad, app.js lines
633-679: the four distances are computed against the buffered bounds and
the computed canvas dimensions, and the if / else-if chain selects the
first direction within the threshold, in the order right, bottom, left,
top (the left and top branches additionally test bounds.left, resp.
bounds.top, against the threshold, which duplicates the distance test
since distanceToLeft = bounds.left - 0 and distanceToTop = bounds.top - 0). -/
def firstTriggeredDirection (s : AppState) : Option Direction :=
  let bounds := calculateViewportBounds s.view
  let canvasDims := calculateCanvasDimensions s.store.itemData
  let distanceToRight := canvasDims.width - bounds.right
  let distanceToLeft := bounds.left - 0
  let distanceToBottom := canvasDims.height - bounds.bottom
  let distanceToTop := bounds.top - 0
  if distanceToRight < LOAD_THRESHOLD then some .right
  else if distanceToBottom < LOAD_THRESHOLD then some .bottom
  else if distanceToLeft < LOAD_THRESHOLD ∧ bounds.left < LOAD_THRESHOLD then some .left
  else if distanceToTop < LOAD_THRESHOLD ∧ bounds.top < LOAD_THRESHOLD then some .top
  else none

/-- checkBoundariesAndLoad from app.js lines 630-680: a no-op when the
in-flight guard is set or the store is empty; otherwise the first direction
within the load threshold (if any) receives the load sequence. -/
def checkBoundariesAndLoad (s : AppState) : AppState :=
  if s.isLoadingMore || s.store.itemData.isEmpty then s
  else
    match firstTriggeredDirection s with
    | some d => loadInDirection s d
    | none => s

/-- render from app.js lines 697-701: reconcile the DOM, check boundaries,
then clear the pending-frame flag. -/
def render (s : AppState) : AppState :=
  let s1 := { s with registry := syncDOM s.store.itemData s.view s.registry }
  let s2 := checkBoundariesAndLoad s1
  { s2 with renderPending := false }

/-- handleMouseDown from app.js lines 74-85 (left button only). -/
def handleMouseDown (s : AppState) (clientX clientY : ℚ) (button : Nat) :
    AppState :=
  if button ≠ 0 then s
  else
    { s with view := { s.view with
        isDragging := true
        dragStartX := clientX
        dragStartY := clientY
        dragStartPanX := s.view.panX
        dragStartPanY := s.view.panY } }

/-- handleMouseMove from app.js lines 87-102: while dragging, pan by the
cursor delta, schedule a render and run the boundary check synchronously. -/
def handleMouseMove (s : AppState) (clientX clientY : ℚ) : AppState :=
  if !s.view.isDragging then s
  else
    let v := s.view
    let s1 := { s with view := { v with
        panX := v.dragStartPanX + (clientX - v.dragStartX)
        panY := v.dragStartPanY + (clientY - v.dragStartY) } }
    checkBoundariesAndLoad (scheduleRender s1)

/-- handleMouseUp from app.js lines 104-112. -/
def handleMouseUp (s : AppState) : AppState :=
  if !s.view.isDragging then s
  else scheduleRender { s with view := { s.view with isDragging := false } }

/-- handleWheel from app.js lines 114-141: the zoomAt camera mutation,
then a render request and a synchronous boundary check. -/
def handleWheel (s : AppState) (mouseX mouseY deltaY : ℚ) : AppState :=
  checkBoundariesAndLoad
    (scheduleRender { s with view := zoomAt s.view mouseX mouseY deltaY })

/-- handleResize from app.js lines 143-147. -/
def handleResize (s : AppState) (w h : ℚ) : AppState :=
  scheduleRender { s with view := { s.view with viewportWidth := w, viewportHeight := h } }

/-- One input event or frame callback of the single-threaded session. -/
inductive SessionOp where
  | mouseDown (x y : ℚ) (button : Nat)
  | mouseMove (x y : ℚ)
  | mouseUp
  | wheel (mx my dy : ℚ)
  | resize (w h : ℚ)
  | frame
deriving Repr

/-- Dispatch one session event.  A frame event runs the render callback
only when one is pending, as requestAnimationFrame does. -/
def stepSession (s : AppState) : SessionOp → AppState
  | .mouseDown x y b => handleMouseDown s x y b
  | .mouseMove x y => handleMouseMove s x y
  | .mouseUp => handleMouseUp s
  | .wheel mx my dy => handleWheel s mx my dy
  | .resize w h => handleResize s w h
  | .frame => if s.renderPending then render s else s

/-- Run a sequence of session events. -/
def runSession (s : AppState) (ops : List SessionOp) : AppState :=
  ops.foldl stepSession s

/-- Ids of a store, in store order. -/
def storeIds (s : Store) : List Int := s.itemData.map (fun it => it.id)

/-- One call of the append operation on the store. -/
def applyAppend (s : Store) (op : Nat × Direction) : Store :=
  (addMoreItems op.1 op.2 s).1

/-- A sequence of append operations on the store. -/
def applyAppends (s : Store) (ops : List (Nat × Direction)) : Store :=
  ops.foldl applyAppend s

/-- Store invariant for the id claims: synthetic data in use, nonnegative
counter, every id between 1 and the global counter, and all ids distinct. -/
def StoreInv (s : Store) : Prop :=
  s.usingRealData = false ∧ 0 ≤ s.counter ∧
  (∀ it ∈ s.itemData, 1 ≤ it.id ∧ it.id ≤ s.counter) ∧
  (storeIds s).Nodup

/-- Camera state of testable property 7: pan (0,0), zoom 1, viewport
800 x 600 (canvas extent as for the initial 2000-item store). -/
def c8View : ViewState :=
  { panX := 0, panY := 0, zoom := 1, isDragging := false,
    dragStartX := 0, dragStartY := 0, dragStartPanX := 0, dragStartPanY := 0,
    viewportWidth := 800, viewportHeight := 600,
    canvasWidth := 10000, canvasHeight := 8000 }

/-- The item at grid cell (column 4, row 0) of testable property 7. -/
def c8Item : Item := { id := 1, x := 800, y := 0, column := 4, row := 0 }

/-- A single item at the origin cell, for small concrete stores. -/
def unitItem : Item := { id := 1, x := 0, y := 0, column := 0, row := 0 }

/-- Camera state for the boundary scenarios: zoom 1, pan (0,0), viewport
9000 x 7000, so the buffered bounds reach from (-600,-600) to (9600,7600)
and both the right and the bottom distances are below the threshold for a
one-item store. -/
def c1View : ViewState :=
  { panX := 0, panY := 0, zoom := 1, isDragging := false,
    dragStartX := 0, dragStartY := 0, dragStartPanX := 0, dragStartPanY := 0,
    viewportWidth := 9000, viewportHeight := 7000,
    canvasWidth := 10000, canvasHeight := 200 }

/-- A one-item synthetic store. -/
def c1Store : Store := { itemData := [unitItem], counter := 1, usingRealData := false }

/-- App state for the boundary-append scenarios: loader installed, guard
clear, both right and bottom within the load threshold. -/
def c1State : AppState :=
  { view := c1View, store := c1Store,
    isLoadingMore := false, loaderPresent := true,
    registry := [], renderPending := false,
    appendLog := [], renderRequests := 0 }

/-- The same scenario with window.addMoreItemsToMEGHTOSH not installed. -/
def c10State : AppState :=
  { view := c1View, store := c1Store,
    isLoadingMore := false, loaderPresent := false,
    registry := [], renderPending := false,
    appendLog := [], renderRequests := 0 }

/-- The buffered bounds of the eviction scenario (those of c8View); the
center is (400, 300). -/
def c2Bounds : ViewBounds := { left := -600, top := -600, right := 1400, bottom := 1200 }

/-- A selected item with id n + 1 at the origin cell, for the eviction
scenario. -/
def selItem (n : Nat) : Item :=
  { id := (n : Int) + 1, x := 0, y := 0, column := 0, row := 0 }

/-- The 499 selected items of the eviction scenario. -/
def c2SelItems : List Item := (List.range 499).map selItem

/-- Non-selected item at pixel distance 50 from the bounds center (its
cell center is (450, 300)). -/
def c2Item50 : Item := { id := 500, x := 350, y := 200, column := 1, row := 1 }

/-- Non-selected item at pixel distance 10 from the bounds center (its
cell center is (410, 300)). -/
def c2Item10 : Item := { id := 501, x := 310, y := 200, column := 1, row := 1 }

/-- Non-selected item at pixel distance 30 from the bounds center (its
cell center is (430, 300)). -/
def c2Item30 : Item := { id := 502, x := 330, y := 200, column := 1, row := 1 }

/-- The item store of the eviction scenario. -/
def c2Items : List Item := c2SelItems ++ [c2Item50, c2Item10, c2Item30]

/-- The selected-visible id set S of the eviction scenario: ids 1..499. -/
def c2VisibleIds : List Int := (List.range 499).map (fun (n : Nat) => (n : Int) + 1)

/-- The live registry of the eviction scenario: 499 selected ids plus the
three non-selected items, 502 entries in all, so the cap forces exactly two
evictions. -/
def c2Registry : List Int := c2VisibleIds ++ [500, 501, 502]

/-- Witness store for the append tiling claim: 51 items (two grid rows by
the row count the code computes), minimum x equal to 0. -/
def w4Item0 : Item := { id := 1, x := 0, y := 0, column := 0, row := 0 }

/-- An item on row 1 for the witness store. -/
def w4Item1 : Item := { id := 2, x := 0, y := 200, column := 0, row := 1 }

/-- The witness store item list: one item on row 0 and fifty on row 1. -/
def w4Items : List Item := w4Item0 :: List.replicate 50 w4Item1

/-- The witness store for the append tiling claim. -/
def w4Store : Store := { itemData := w4Items, counter := 51, usingRealData := false }

/-! Theorems. -/

/-- Helper: the buffered bounds of the 800 x 600 viewport at pan (0,0),
zoom 1 are (-600,-600) to (1400,1200). -/
theorem c8View_bounds :
    calculateViewportBounds c8View =
      { left := -600, top := -600, right := 1400, bottom := 1200 } := by
  simp only [calculateViewportBounds, screenToWorld, c8View, BUFFER_SIZE, ITEM_SIZE]
  norm_num

/-- C5: for every camera state with positive zoom and every cursor point
and wheel delta, the world point under the cursor is unchanged by the
zoom-at-point operation: screenToWorld at the cursor agrees before and
after zoomAt. -/
theorem C5_zoom_anchoring (v : ViewState) (mouseX mouseY deltaY : ℚ)
    (hz : 0 < v.zoom) :
    screenToWorld (zoomAt v mouseX mouseY deltaY) mouseX mouseY =
      screenToWorld v mouseX mouseY := by
  have hz0 : v.zoom ≠ 0 := ne_of_gt hz
  have hnz : (0 : ℚ) < max 0.1 (min 5.0 (v.zoom + -deltaY * 0.1 / 1000)) :=
    lt_of_lt_of_le (by norm_num) (le_max_left _ _)
  have hnz0 : max (0.1 : ℚ) (min 5.0 (v.zoom + -deltaY * 0.1 / 1000)) ≠ 0 :=
    ne_of_gt hnz
  simp only [screenToWorld, zoomAt, Prod.mk.injEq]
  constructor
  · field_simp
    ring
  · field_simp
    ring

/-- C5 witness: at zoom 1, pan (0,0), cursor (100, 50), delta 100, the
anchoring property holds, and the zoom hypothesis is satisfied. -/
theorem C5_zoom_anchoring_witness :
    (0 : ℚ) < c8View.zoom ∧
    screenToWorld (zoomAt c8View 100 50 100) 100 50 =
      screenToWorld c8View 100 50 :=
  ⟨by norm_num [c8View], C5_zoom_anchoring c8View 100 50 100 (by norm_num [c8View])⟩

/-- C8: with pan (0,0), zoom 1, viewport 800 x 600, cell size 200 and
buffer 3 cells, the buffered bounds are (-600,-600) to (1400,1200), grid
cell (4,0) maps to world (800,0), and the item with cell square
[800,1000] x [0,200] overlaps the bounds and is selected as visible. -/
theorem C8_edge_case_selection :
    calculateViewportBounds c8View =
      { left := -600, top := -600, right := 1400, bottom := 1200 } ∧
    gridToWorld 4 0 = (800, 0) ∧
    itemIntersectsViewport c8Item (calculateViewportBounds c8View) = true ∧
    c8Item ∈ findVisibleItems [c8Item] c8View := by
  have hb := c8View_bounds
  have hi : itemIntersectsViewport c8Item (calculateViewportBounds c8View) = true := by
    rw [hb]
    simp only [itemIntersectsViewport, c8Item, ITEM_SIZE]
    norm_num
  refine ⟨hb, ?_, hi, ?_⟩
  · simp only [gridToWorld, ITEM_SIZE, Prod.mk.injEq]
    norm_num
  · simp only [findVisibleItems, List.mem_filter, List.mem_singleton]
    exact ⟨trivial, hi⟩

/-- Helper: membership in the removal step. -/
theorem mem_removeStep {S reg : List Int} {a : Int} :
    a ∈ removeStep S reg ↔ a ∈ reg ∧ a ∈ S := by
  simp [removeStep, List.mem_filter, List.elem_iff]

/-- Helper: the removal step preserves distinctness. -/
theorem removeStep_nodup {S reg : List Int} (h : reg.Nodup) :
    (removeStep S reg).Nodup :=
  h.filter _

/-- Helper: a found item carries the id it was looked up by. -/
theorem find?_id_eq {items : List Item} {itemId : Int} {it : Item}
    (h : items.find? (fun i => i.id == itemId) = some it) : it.id = itemId := by
  have := List.find?_some h
  simpa [beq_iff_eq] using this

/-- Helper: ids in the visible set get no distance entry. -/
theorem distanceEntry_eq_none {items : List Item} {S : List Int}
    {cx cy : ℚ} {itemId : Int} (h : itemId ∈ S) :
    distanceEntry items S cx cy itemId = none := by
  unfold distanceEntry
  cases hf : items.find? (fun i => i.id == itemId) with
  | none => rfl
  | some it =>
    have hid : it.id = itemId := find?_id_eq hf
    simp only [hid, if_pos (List.elem_iff.mpr h)]

/-- Helper: the eviction step only removes entries. -/
theorem evictStep_subset {items : List Item} {bounds : ViewBounds}
    {S reg : List Int} {a : Int} (h : a ∈ evictStep items bounds S reg) :
    a ∈ reg := by
  unfold evictStep at h
  split at h
  · exact (List.mem_filter.mp h).1
  · exact h

/-- Helper: the eviction step preserves distinctness. -/
theorem evictStep_nodup {items : List Item} {bounds : ViewBounds}
    {S reg : List Int} (h : reg.Nodup) :
    (evictStep items bounds S reg).Nodup := by
  unfold evictStep
  split
  · exact h.filter _
  · exact h

/-- Helper: when every live id is in the visible set, the eviction step
measures no distances and removes nothing. -/
theorem evictStep_eq_self {items : List Item} {bounds : ViewBounds}
    {S reg : List Int} (hall : ∀ id ∈ reg, id ∈ S) :
    evictStep items bounds S reg = reg := by
  simp only [evictStep]
  split
  · have hnil : reg.filterMap
        (distanceEntry items S ((bounds.left + bounds.right) / 2)
          ((bounds.top + bounds.bottom) / 2)) = [] := by
      rw [List.filterMap_eq_nil_iff]
      intro id hid
      exact distanceEntry_eq_none (hall id hid)
    rw [hnil]
    simp [List.filter_eq_self, sortByDistDesc]
  · rfl

/-- Helper: after the removal step every remaining id is visible, so the
eviction step is the identity there. -/
theorem evictStep_after_removeStep (items : List Item) (bounds : ViewBounds)
    (S reg : List Int) :
    evictStep items bounds S (removeStep S reg) = removeStep S reg :=
  evictStep_eq_self (fun _ hid => (mem_removeStep.mp hid).2)

/-- Helper: one unfolding of the addition step. -/
theorem addStep_cons (it : Item) (visible : List Item) (reg : List Int) :
    addStep (it :: visible) reg =
      addStep visible (if reg.contains it.id then reg else reg ++ [it.id]) := rfl

/-- Helper: membership in the addition step. -/
theorem mem_addStep {visible : List Item} {reg : List Int} {a : Int} :
    a ∈ addStep visible reg ↔ a ∈ reg ∨ a ∈ visible.map (fun it => it.id) := by
  induction visible generalizing reg with
  | nil => simp [addStep]
  | cons it rest ih =>
    rw [addStep_cons]
    by_cases h : reg.contains it.id
    · rw [if_pos h]
      rw [ih]
      have hmem : it.id ∈ reg := List.elem_iff.mp h
      constructor
      · rintro (h1 | h1)
        · exact Or.inl h1
        · exact Or.inr (by simp [h1])
      · rintro (h1 | h1)
        · exact Or.inl h1
        · simp only [List.map_cons, List.mem_cons] at h1
          rcases h1 with h1 | h1
          · exact Or.inl (h1 ▸ hmem)
          · exact Or.inr h1
    · rw [if_neg h]
      rw [ih]
      simp only [List.mem_append, List.mem_singleton, List.map_cons, List.mem_cons]
      tauto

/-- Helper: the addition step preserves distinctness. -/
theorem addStep_nodup {visible : List Item} {reg : List Int}
    (h : reg.Nodup) : (addStep visible reg).Nodup := by
  induction visible generalizing reg with
  | nil => exact h
  | cons it rest ih =>
    rw [addStep_cons]
    by_cases hc : reg.contains it.id
    · rw [if_pos hc]
      exact ih h
    · rw [if_neg hc]
      refine ih ?_
      rw [List.nodup_append]
      refine ⟨h, List.nodup_singleton _, ?_⟩
      intro x hx hx1
      rw [List.mem_singleton] at hx1
      exact hc (List.elem_iff.mpr (hx1 ▸ hx))

/-- Helper: the registry after syncDOM holds exactly the visible ids. -/
theorem mem_syncDOM {items : List Item} {v : ViewState} {reg : List Int}
    {a : Int} :
    a ∈ syncDOM items v reg ↔
      a ∈ (findVisibleItems items v).map (fun it => it.id) := by
  simp only [syncDOM]
  rw [evictStep_after_removeStep]
  rw [mem_addStep]
  constructor
  · rintro (h | h)
    · exact (mem_removeStep.mp h).2
    · exact h
  · exact Or.inr

/-- Helper: syncDOM preserves distinctness of the registry. -/
theorem syncDOM_nodup {items : List Item} {v : ViewState} {reg : List Int}
    (h : reg.Nodup) : (syncDOM items v reg).Nodup := by
  simp only [syncDOM]
  rw [evictStep_after_removeStep]
  exact addStep_nodup (removeStep_nodup h)

/-- C9: after every syncDOM pass the registry ids are exactly the ids
selected by findVisibleItems for that pass, and, because the removal step
leaves only selected ids live, the distance-based eviction block finds no
non-selected live item and removes nothing. -/
theorem C9_registry_equals_visible (items : List Item) (v : ViewState)
    (reg : List Int) :
    (∀ a : Int, a ∈ syncDOM items v reg ↔
      a ∈ (findVisibleItems items v).map (fun it => it.id)) ∧
    evictStep items (calculateViewportBounds v)
        ((findVisibleItems items v).map (fun it => it.id))
        (removeStep ((findVisibleItems items v).map (fun it => it.id)) reg) =
      removeStep ((findVisibleItems items v).map (fun it => it.id)) reg :=
  ⟨fun _ => mem_syncDOM, evictStep_after_removeStep _ _ _ _⟩

/-- C3: after a syncDOM pass on a duplicate-free registry, the registry
size is at most MAX_DOM_NODES, unless the selected set S of that pass
itself exceeds the cap, in which case every selected item is still live. -/
theorem C3_cap_enforcement (items : List Item) (v : ViewState)
    (reg : List Int) (h : reg.Nodup) :
    (syncDOM items v reg).length ≤ MAX_DOM_NODES ∨
    (MAX_DOM_NODES < (findVisibleItems items v).length ∧
      ∀ it ∈ findVisibleItems items v, it.id ∈ syncDOM items v reg) := by
  by_cases hlen : (findVisibleItems items v).length ≤ MAX_DOM_NODES
  · left
    have hnd : (syncDOM items v reg).Nodup := syncDOM_nodup h
    have hsub : syncDOM items v reg ⊆
        (findVisibleItems items v).map (fun it => it.id) :=
      fun a ha => mem_syncDOM.mp ha
    calc (syncDOM items v reg).length
        = (syncDOM items v reg).toFinset.card :=
          (List.toFinset_card_of_nodup hnd).symm
      _ ≤ ((findVisibleItems items v).map (fun it => it.id)).toFinset.card := by
          apply Finset.card_le_card
          intro x hx
          rw [List.mem_toFinset] at *
          exact hsub hx
      _ ≤ ((findVisibleItems items v).map (fun it => it.id)).length :=
          List.toFinset_card_le _
      _ = (findVisibleItems items v).length := List.length_map _ _
      _ ≤ MAX_DOM_NODES := hlen
  · right
    refine ⟨Nat.lt_of_not_le hlen, fun it hit => ?_⟩
    exact mem_syncDOM.mpr (List.mem_map_of_mem _ hit)

/-- C3 witness: a one-item store, the property-7 camera and an empty (so
duplicate-free) registry satisfy the hypothesis, and the cap disjunction
holds there. -/
theorem C3_cap_enforcement_witness :
    ([] : List Int).Nodup ∧
    ((syncDOM [c8Item] c8View []).length ≤ MAX_DOM_NODES ∨
      (MAX_DOM_NODES < (findVisibleItems [c8Item] c8View).length ∧
        ∀ it ∈ findVisibleItems [c8Item] c8View,
          it.id ∈ syncDOM [c8Item] c8View [])) :=
  ⟨List.nodup_nil, C3_cap_enforcement [c8Item] c8View [] List.nodup_nil⟩

/-- Helper: scheduleRender leaves every field but the frame bookkeeping
unchanged. -/
@[simp] theorem scheduleRender_view (s : AppState) :
    (scheduleRender s).view = s.view := by
  simp only [scheduleRender]; split <;> rfl

@[simp] theorem scheduleRender_store (s : AppState) :
    (scheduleRender s).store = s.store := by
  simp only [scheduleRender]; split <;> rfl

@[simp] theorem scheduleRender_isLoadingMore (s : AppState) :
    (scheduleRender s).isLoadingMore = s.isLoadingMore := by
  simp only [scheduleRender]; split <;> rfl

@[simp] theorem scheduleRender_loaderPresent (s : AppState) :
    (scheduleRender s).loaderPresent = s.loaderPresent := by
  simp only [scheduleRender]; split <;> rfl

@[simp] theorem scheduleRender_registry (s : AppState) :
    (scheduleRender s).registry = s.registry := by
  simp only [scheduleRender]; split <;> rfl

@[simp] theorem scheduleRender_appendLog (s : AppState) :
    (scheduleRender s).appendLog = s.appendLog := by
  simp only [scheduleRender]; split <;> rfl

@[simp] theorem scheduleRender_renderRequests (s : AppState) :
    (scheduleRender s).renderRequests = s.renderRequests + 1 := by
  simp only [scheduleRender]; split <;> rfl

/-- Helper: updateCanvasSize touches only the canvas extent fields. -/
@[simp] theorem updateCanvasSize_store (s : AppState) :
    (updateCanvasSize s).store = s.store := rfl

@[simp] theorem updateCanvasSize_isLoadingMore (s : AppState) :
    (updateCanvasSize s).isLoadingMore = s.isLoadingMore := rfl

@[simp] theorem updateCanvasSize_loaderPresent (s : AppState) :
    (updateCanvasSize s).loaderPresent = s.loaderPresent := rfl

@[simp] theorem updateCanvasSize_registry (s : AppState) :
    (updateCanvasSize s).registry = s.registry := rfl

@[simp] theorem updateCanvasSize_renderPending (s : AppState) :
    (updateCanvasSize s).renderPending = s.renderPending := rfl

@[simp] theorem updateCanvasSize_appendLog (s : AppState) :
    (updateCanvasSize s).appendLog = s.appendLog := rfl

@[simp] theorem updateCanvasSize_renderRequests (s : AppState) :
    (updateCanvasSize s).renderRequests = s.renderRequests := rfl

@[simp] theorem updateCanvasSize_canvasWidth (s : AppState) :
    (updateCanvasSize s).view.canvasWidth =
      (calculateCanvasDimensions s.store.itemData).width := rfl

@[simp] theorem updateCanvasSize_canvasHeight (s : AppState) :
    (updateCanvasSize s).view.canvasHeight =
      (calculateCanvasDimensions s.store.itemData).height := rfl

@[simp] theorem updateCanvasSize_panX (s : AppState) :
    (updateCanvasSize s).view.panX = s.view.panX := rfl

@[simp] theorem updateCanvasSize_panY (s : AppState) :
    (updateCanvasSize s).view.panY = s.view.panY := rfl

@[simp] theorem updateCanvasSize_zoom (s : AppState) :
    (updateCanvasSize s).view.zoom = s.view.zoom := rfl

/-- Helper: doAppend touches only the store and the append log. -/
@[simp] theorem doAppend_view (s : AppState) (d : Direction) :
    (doAppend s d).view = s.view := rfl

@[simp] theorem doAppend_isLoadingMore (s : AppState) (d : Direction) :
    (doAppend s d).isLoadingMore = s.isLoadingMore := rfl

@[simp] theorem doAppend_loaderPresent (s : AppState) (d : Direction) :
    (doAppend s d).loaderPresent = s.loaderPresent := rfl

@[simp] theorem doAppend_registry (s : AppState) (d : Direction) :
    (doAppend s d).registry = s.registry := rfl

@[simp] theorem doAppend_renderPending (s : AppState) (d : Direction) :
    (doAppend s d).renderPending = s.renderPending := rfl

@[simp] theorem doAppend_renderRequests (s : AppState) (d : Direction) :
    (doAppend s d).renderRequests = s.renderRequests := rfl

@[simp] theorem doAppend_store (s : AppState) (d : Direction) :
    (doAppend s d).store = (addMoreItems 2000 d s.store).1 := rfl

@[simp] theorem doAppend_appendLog (s : AppState) (d : Direction) :
    (doAppend s d).appendLog = s.appendLog ++ [d] := rfl

/-- Helper: beginLoad with the loader installed performs the append on the
guard-set state. -/
theorem beginLoad_of_loader (s : AppState) (d : Direction)
    (hl : s.loaderPresent = true) :
    beginLoad s d = doAppend { s with isLoadingMore := true } d := by
  simp only [beginLoad]
  rw [if_pos]
  exact hl

/-- Helper: beginLoad without the loader only sets the guard. -/
theorem beginLoad_of_no_loader (s : AppState) (d : Direction)
    (hl : s.loaderPresent = false) :
    beginLoad s d = { s with isLoadingMore := true } := by
  simp only [beginLoad]
  rw [if_neg]
  simp [hl]

/-- Helper: the in-flight state set by beginLoad has the guard set. -/
theorem beginLoad_isLoadingMore (s : AppState) (d : Direction) :
    (beginLoad s d).isLoadingMore = true := by
  simp only [beginLoad]
  split <;> rfl

/-- Helper: finishLoad never invokes the append operation. -/
theorem finishLoad_appendLog (s : AppState) :
    (finishLoad s).appendLog = s.appendLog := by
  simp only [finishLoad]
  split <;> simp

/-- Helper: a boundary check on a state with the in-flight guard set
returns the state unchanged. -/
theorem checkBoundaries_guarded (s : AppState)
    (hs : s.isLoadingMore = true) : checkBoundariesAndLoad s = s := by
  simp [checkBoundariesAndLoad, hs]

/-- C6: a boundary check that fires while the in-flight guard is set is a
no-op (no append, no state change); consequently two back-to-back boundary
checks, the second arriving after the first has invoked the append but
before the first has completed, perform exactly one append: the in-flight
state records exactly one new append-log entry, a full boundary check run
on it changes nothing, and completing the first check appends nothing
further. -/
theorem C6_inflight_guard :
    (∀ s : AppState, s.isLoadingMore = true → checkBoundariesAndLoad s = s) ∧
    (∀ (s : AppState) (d : Direction), s.loaderPresent = true →
      (beginLoad s d).appendLog = s.appendLog ++ [d] ∧
      checkBoundariesAndLoad (beginLoad s d) = beginLoad s d ∧
      (loadInDirection s d).appendLog = (beginLoad s d).appendLog) := by
  refine ⟨checkBoundaries_guarded, fun s d hl => ?_⟩
  refine ⟨?_, checkBoundaries_guarded _ (beginLoad_isLoadingMore s d),
    finishLoad_appendLog _⟩
  rw [beginLoad_of_loader s d hl]
  rfl

/-- C6 witness: in the concrete boundary scenario with the loader
installed, the first check performs one append to the right, a second check
fired while it is in flight is a no-op, and completing it appends nothing
more. -/
theorem C6_inflight_guard_witness :
    c1State.loaderPresent = true ∧
    ((beginLoad c1State .right).appendLog = c1State.appendLog ++ [.right] ∧
      checkBoundariesAndLoad (beginLoad c1State .right) = beginLoad c1State .right ∧
      (loadInDirection c1State .right).appendLog =
        (beginLoad c1State .right).appendLog) :=
  ⟨rfl, C6_inflight_guard.2 c1State .right rfl⟩

/-- Helper: while the in-flight guard is set, no session event clears it
and no session event invokes the append operation. -/
theorem stepSession_guarded (s : AppState) (op : SessionOp)
    (hg : s.isLoadingMore = true) :
    (stepSession s op).isLoadingMore = true ∧
    (stepSession s op).appendLog = s.appendLog := by
  cases op with
  | mouseDown x y b =>
    simp only [stepSession, handleMouseDown]
    split
    · exact ⟨hg, rfl⟩
    · exact ⟨hg, rfl⟩
  | mouseMove x y =>
    simp only [stepSession, handleMouseMove]
    split
    · exact ⟨hg, rfl⟩
    · rw [checkBoundaries_guarded _ (by simp [hg])]
      simp
      exact hg
  | mouseUp =>
    simp only [stepSession, handleMouseUp]
    split
    · exact ⟨hg, rfl⟩
    · simp
      exact hg
  | wheel mx my dy =>
    simp only [stepSession, handleWheel]
    rw [checkBoundaries_guarded _ (by simp [hg])]
    simp
    exact hg
  | resize w h =>
    simp only [stepSession, handleResize]
    simp
    exact hg
  | frame =>
    simp only [stepSession, render]
    split
    · rw [checkBoundaries_guarded _ (by simp [hg])]
      exact ⟨hg, rfl⟩
    · exact ⟨hg, rfl⟩

/-- Helper: while the in-flight guard is set, no sequence of session
events clears it or grows the append log. -/
theorem runSession_guarded (s : AppState) (ops : List SessionOp)
    (hg : s.isLoadingMore = true) :
    (runSession s ops).isLoadingMore = true ∧
    (runSession s ops).appendLog = s.appendLog := by
  induction ops generalizing s with
  | nil => exact ⟨hg, rfl⟩
  | cons op rest ih =>
    have hstep := stepSession_guarded s op hg
    have hrest := ih (stepSession s op) hstep.1
    exact ⟨hrest.1, hrest.2.trans hstep.2⟩

/-- Helper: the buffered bounds of the 9000 x 7000 viewport at pan (0,0),
zoom 1 are (-600,-600) to (9600,7600). -/
theorem c1View_bounds :
    calculateViewportBounds c1View =
      { left := -600, top := -600, right := 9600, bottom := 7600 } := by
  simp only [calculateViewportBounds, screenToWorld, c1View, BUFFER_SIZE, ITEM_SIZE]
  norm_num

/-- Helper: the canvas dimensions of a one-item store are 10000 x 200. -/
theorem canvasDims_one_item :
    calculateCanvasDimensions [unitItem] = { width := 10000, height := 200 } := by
  simp only [calculateCanvasDimensions, natCeilDiv, GRID_COLUMNS, ITEM_SIZE,
    List.length_singleton]
  norm_num

/-- Helper: in the c1 camera and one-item store, the right boundary is the
first (and hence the selected) direction within the load threshold. -/
theorem firstTriggered_c1 (s : AppState) (hv : s.view = c1View)
    (hi : s.store.itemData = [unitItem]) :
    firstTriggeredDirection s = some .right := by
  simp only [firstTriggeredDirection, hv, hi, c1View_bounds, canvasDims_one_item]
  rw [if_pos]
  norm_num [LOAD_THRESHOLD]

/-- C10: when a boundary-load threshold is crossed while the loader
function is not installed, the boundary check sets the in-flight guard and
changes nothing else, and from that state no sequence of session events
ever clears the guard or performs an append again. -/
theorem C10_sticky_guard (s : AppState) (d : Direction)
    (hl : s.loaderPresent = false) (hg : s.isLoadingMore = false)
    (hne : s.store.itemData ≠ [])
    (ht : firstTriggeredDirection s = some d) :
    checkBoundariesAndLoad s = { s with isLoadingMore := true } ∧
    ∀ ops : List SessionOp,
      (runSession { s with isLoadingMore := true } ops).isLoadingMore = true ∧
      (runSession { s with isLoadingMore := true } ops).appendLog =
        s.appendLog := by
  have hempty : s.store.itemData.isEmpty = false := by
    cases h : s.store.itemData with
    | nil => exact absurd h hne
    | cons a l => rfl
  constructor
  · simp only [checkBoundariesAndLoad, hg, hempty, ht]
    rw [if_neg (by simp)]
    simp only [loadInDirection]
    rw [beginLoad_of_no_loader s d hl]
    simp only [finishLoad]
    rw [if_neg (by simp [hl])]
  · intro ops
    exact runSession_guarded _ ops rfl

/-- C10 witness: the concrete scenario with the loader missing crosses the
right threshold, the check leaves the guard set, and no later session
events (here: a wheel event, a frame, a drag step) revive appending. -/
theorem C10_sticky_guard_witness :
    c10State.loaderPresent = false ∧
    c10State.isLoadingMore = false ∧
    c10State.store.itemData ≠ [] ∧
    firstTriggeredDirection c10State = some .right ∧
    (checkBoundariesAndLoad c10State = { c10State with isLoadingMore := true } ∧
      ∀ ops : List SessionOp,
        (runSession { c10State with isLoadingMore := true } ops).isLoadingMore = true ∧
        (runSession { c10State with isLoadingMore := true } ops).appendLog =
          c10State.appendLog) := by
  have hne : c10State.store.itemData ≠ [] := by
    simp [c10State, c1Store]
  have ht : firstTriggeredDirection c10State = some .right :=
    firstTriggered_c1 c10State rfl rfl
  exact ⟨rfl, rfl, hne, ht, C10_sticky_guard c10State .right rfl rfl hne ht⟩

/-- Helper: with the guard clear and a non-empty store, the boundary check
runs the load sequence for the first triggered direction. -/
theorem checkBoundaries_triggered (s : AppState) (d : Direction)
    (hg : s.isLoadingMore = false) (hne : s.store.itemData ≠ [])
    (ht : firstTriggeredDirection s = some d) :
    checkBoundariesAndLoad s = loadInDirection s d := by
  have hempty : s.store.itemData.isEmpty = false := by
    cases h : s.store.itemData with
    | nil => exact absurd h hne
    | cons a l => rfl
  simp only [checkBoundariesAndLoad, hg, hempty, ht]
  rw [if_neg (by simp)]

/-- Helper: with the loader installed, the load sequence appends exactly
once, for its direction, and the appended store is addMoreItems applied to
the old store. -/
theorem loadInDirection_effect (s : AppState) (d : Direction)
    (hl : s.loaderPresent = true) :
    (loadInDirection s d).appendLog = s.appendLog ++ [d] ∧
    (loadInDirection s d).store = (addMoreItems 2000 d s.store).1 ∧
    (loadInDirection s d).view.canvasWidth =
      (calculateCanvasDimensions (addMoreItems 2000 d s.store).1.itemData).width ∧
    (loadInDirection s d).view.canvasHeight =
      (calculateCanvasDimensions (addMoreItems 2000 d s.store).1.itemData).height ∧
    (loadInDirection s d).renderRequests = s.renderRequests + 1 := by
  simp only [loadInDirection]
  rw [beginLoad_of_loader s d hl]
  simp only [finishLoad]
  rw [if_pos (by simp [hl])]
  refine ⟨?_, ?_, ?_, ?_, ?_⟩ <;> simp

/-- C1 (amended): whenever the boundary check after a reconciliation runs
with the guard clear, the loader installed and a non-empty store, only the
first direction in the priority order right, bottom, left, top whose
distance is below the load threshold receives an append; after that single
append the logical extent is recomputed from the grown store and a render
is rescheduled. -/
theorem C1_first_direction_append (s : AppState) (d : Direction)
    (hg : s.isLoadingMore = false) (hl : s.loaderPresent = true)
    (hne : s.store.itemData ≠ [])
    (ht : firstTriggeredDirection s = some d) :
    (checkBoundariesAndLoad s).appendLog = s.appendLog ++ [d] ∧
    (checkBoundariesAndLoad s).store = (addMoreItems 2000 d s.store).1 ∧
    (checkBoundariesAndLoad s).view.canvasWidth =
      (calculateCanvasDimensions (addMoreItems 2000 d s.store).1.itemData).width ∧
    (checkBoundariesAndLoad s).view.canvasHeight =
      (calculateCanvasDimensions (addMoreItems 2000 d s.store).1.itemData).height ∧
    (checkBoundariesAndLoad s).renderRequests = s.renderRequests + 1 := by
  rw [checkBoundaries_triggered s d hg hne ht]
  exact loadInDirection_effect s d hl

/-- C1 counterexample: in the concrete state c1State both the right and
the bottom distances are below the load threshold, yet the boundary check
invokes the append operation only for the right direction, so the claim
that every direction within the threshold receives an append (both, when
two are within threshold simultaneously) is false on the code. -/
theorem C1_counterexample :
    (calculateCanvasDimensions c1State.store.itemData).width -
        (calculateViewportBounds c1State.view).right < LOAD_THRESHOLD ∧
    (calculateCanvasDimensions c1State.store.itemData).height -
        (calculateViewportBounds c1State.view).bottom < LOAD_THRESHOLD ∧
    (checkBoundariesAndLoad c1State).appendLog = [Direction.right] := by
  have hv : c1State.view = c1View := rfl
  have hi : c1State.store.itemData = [unitItem] := rfl
  refine ⟨?_, ?_, ?_⟩
  · rw [hv, hi, c1View_bounds, canvasDims_one_item]
    norm_num [LOAD_THRESHOLD]
  · rw [hv, hi, c1View_bounds, canvasDims_one_item]
    norm_num [LOAD_THRESHOLD]
  · rw [checkBoundaries_triggered c1State .right rfl (by simp [hi])
      (firstTriggered_c1 c1State rfl rfl)]
    rw [(loadInDirection_effect c1State .right rfl).1]
    rfl

/-- C1 witness: the amended claim holds at the concrete state c1State with
direction right, every hypothesis being satisfied there. -/
theorem C1_first_direction_append_witness :
    c1State.isLoadingMore = false ∧
    c1State.loaderPresent = true ∧
    c1State.store.itemData ≠ [] ∧
    firstTriggeredDirection c1State = some .right ∧
    ((checkBoundariesAndLoad c1State).appendLog = c1State.appendLog ++ [.right] ∧
      (checkBoundariesAndLoad c1State).store =
        (addMoreItems 2000 .right c1State.store).1 ∧
      (checkBoundariesAndLoad c1State).view.canvasWidth =
        (calculateCanvasDimensions
          (addMoreItems 2000 .right c1State.store).1.itemData).width ∧
      (checkBoundariesAndLoad c1State).view.canvasHeight =
        (calculateCanvasDimensions
          (addMoreItems 2000 .right c1State.store).1.itemData).height ∧
      (checkBoundariesAndLoad c1State).renderRequests =
        c1State.renderRequests + 1) := by
  have hne : c1State.store.itemData ≠ [] := by
    simp [c1State, c1Store]
  have ht : firstTriggeredDirection c1State = some .right :=
    firstTriggered_c1 c1State rfl rfl
  exact ⟨rfl, rfl, hne, ht,
    C1_first_direction_append c1State .right rfl rfl hne ht⟩

/-- Helper: the ids generated by generateItemData are the contiguous range
starting at the base id. -/
theorem generateItemData_ids (n : Nat) (b ix : Int) :
    (generateItemData n b ix).1.map (fun it => it.id) =
      (List.range n).map (fun (i : Nat) => b + (i : Int)) := by
  simp only [generateItemData, List.map_map]
  rfl

/-- Helper: generateItemData moves the counter to base + n - 1. -/
theorem generateItemData_counter (n : Nat) (b ix : Int) :
    (generateItemData n b ix).2 = b + (n : Int) - 1 := rfl

/-- Helper: an indexed reposition that keeps ids leaves the id list
unchanged. -/
theorem mapWithIndex_ids (f : Nat → Item → Item) (k : Nat) (l : List Item)
    (hf : ∀ i it, (f i it).id = it.id) :
    (mapWithIndex f k l).map (fun it => it.id) = l.map (fun it => it.id) := by
  induction l generalizing k with
  | nil => rfl
  | cons it rest ih =>
    simp only [mapWithIndex, List.map_cons, hf, ih]

/-- Helper: every append assigns the ids counter+1, ..., counter+count, in
order, regardless of direction. -/
theorem addMoreItems_new_ids (count : Nat) (d : Direction) (s : Store)
    (hflag : s.usingRealData = false) :
    (addMoreItems count d s).2.map (fun it => it.id) =
      (List.range count).map (fun (i : Nat) => s.counter + 1 + (i : Int)) := by
  cases d with
  | right =>
    simp only [addMoreItems, hflag]
    rw [if_neg (by simp)]
    exact generateItemData_ids count (s.counter + 1) _
  | bottom =>
    simp only [addMoreItems, hflag]
    rw [if_neg (by simp)]
    exact generateItemData_ids count (s.counter + 1) _
  | left =>
    simp only [addMoreItems, hflag]
    rw [if_neg (by simp)]
    dsimp only
    rw [mapWithIndex_ids]
    · exact generateItemData_ids count (s.counter + 1) _
    · intro i it
      rfl
  | top =>
    simp only [addMoreItems, hflag]
    rw [if_neg (by simp)]
    dsimp only
    rw [mapWithIndex_ids]
    · exact generateItemData_ids count (s.counter + 1) _
    · intro i it
      rfl

/-- Helper: every append advances the counter by exactly the batch size. -/
theorem addMoreItems_counter (count : Nat) (d : Direction) (s : Store)
    (hflag : s.usingRealData = false) :
    (addMoreItems count d s).1.counter = s.counter + (count : Int) := by
  cases d <;>
    · simp only [addMoreItems, hflag, generateItemData_counter]
      rw [if_neg (by simp)]
      dsimp only
      omega

/-- Helper: every append leaves the synthetic-data flag unchanged. -/
theorem addMoreItems_flag (count : Nat) (d : Direction) (s : Store) :
    (addMoreItems count d s).1.usingRealData = s.usingRealData := by
  by_cases hflag : s.usingRealData
  · simp [addMoreItems, hflag]
  · simp only [Bool.not_eq_true] at hflag
    cases d <;> simp [addMoreItems, hflag]

/-- Helper: the store after an append consists of the old items and the
new items (prepended for left/top, appended for right/bottom). -/
theorem addMoreItems_itemData (count : Nat) (d : Direction) (s : Store)
    (hflag : s.usingRealData = false) :
    (addMoreItems count d s).1.itemData =
        s.itemData ++ (addMoreItems count d s).2 ∨
      (addMoreItems count d s).1.itemData =
        (addMoreItems count d s).2 ++ s.itemData := by
  cases d with
  | right => left; simp [addMoreItems, hflag]
  | bottom => left; simp [addMoreItems, hflag]
  | left => right; simp [addMoreItems, hflag]
  | top => right; simp [addMoreItems, hflag]

/-- Helper: membership of an id among the newly assigned ids forces it
into the open range above the old counter. -/
theorem mem_new_ids {count : Nat} {d : Direction} {s : Store}
    (hflag : s.usingRealData = false) {it : Item}
    (hmem : it ∈ (addMoreItems count d s).2) :
    s.counter + 1 ≤ it.id ∧ it.id ≤ s.counter + (count : Int) := by
  have h1 : it.id ∈ (addMoreItems count d s).2.map (fun it => it.id) :=
    List.mem_map_of_mem _ hmem
  rw [addMoreItems_new_ids count d s hflag] at h1
  simp only [List.mem_map, List.mem_range] at h1
  obtain ⟨i, hi, hEq⟩ := h1
  omega

/-- Helper: the new id list is duplicate-free. -/
theorem new_ids_nodup (count : Nat) (d : Direction) (s : Store)
    (hflag : s.usingRealData = false) :
    ((addMoreItems count d s).2.map (fun it => it.id)).Nodup := by
  rw [addMoreItems_new_ids count d s hflag]
  refine List.Nodup.map ?_ (List.nodup_range count)
  intro i j hEq
  have h2 : s.counter + 1 + (i : Int) = s.counter + 1 + (j : Int) := hEq
  omega

/-- Helper: one append preserves the store invariant. -/
theorem StoreInv_applyAppend {s : Store} (h : StoreInv s)
    (op : Nat × Direction) : StoreInv (applyAppend s op) := by
  obtain ⟨hflag, hc, hbound, hnd⟩ := h
  have hflag2 : (applyAppend s op).usingRealData = false := by
    show (addMoreItems op.1 op.2 s).1.usingRealData = false
    rw [addMoreItems_flag]
    exact hflag
  have hcount : (applyAppend s op).counter = s.counter + (op.1 : Int) :=
    addMoreItems_counter op.1 op.2 s hflag
  have hc2 : 0 ≤ (applyAppend s op).counter := by omega
  have hids : (storeIds (applyAppend s op)).Nodup ∧
      ∀ it ∈ (applyAppend s op).itemData,
        1 ≤ it.id ∧ it.id ≤ (applyAppend s op).counter := by
    have hsplit := addMoreItems_itemData op.1 op.2 s hflag
    have hnew := new_ids_nodup op.1 op.2 s hflag
    have hdisj : (s.itemData.map (fun it => it.id)).Disjoint
        ((addMoreItems op.1 op.2 s).2.map (fun it => it.id)) := by
      intro a ha hb
      simp only [List.mem_map] at ha hb
      obtain ⟨it1, hm1, he1⟩ := ha
      obtain ⟨it2, hm2, he2⟩ := hb
      have hb1 := (hbound it1 hm1).2
      have hb2 := (mem_new_ids hflag hm2).1
      omega
    have hboundNew : ∀ it ∈ (addMoreItems op.1 op.2 s).2,
        1 ≤ it.id ∧ it.id ≤ (applyAppend s op).counter := by
      intro it hm
      have := mem_new_ids hflag hm
      constructor <;> omega
    have hboundOld : ∀ it ∈ s.itemData,
        1 ≤ it.id ∧ it.id ≤ (applyAppend s op).counter := by
      intro it hm
      have := hbound it hm
      constructor <;> omega
    rcases hsplit with hsplit | hsplit
    · constructor
      · show (((addMoreItems op.1 op.2 s).1.itemData).map (fun it => it.id)).Nodup
        rw [hsplit, List.map_append, List.nodup_append]
        exact ⟨hnd, hnew, hdisj⟩
      · intro it hm
        replace hm : it ∈ (addMoreItems op.1 op.2 s).1.itemData := hm
        rw [hsplit, List.mem_append] at hm
        rcases hm with hm | hm
        · exact hboundOld it hm
        · exact hboundNew it hm
    · constructor
      · show (((addMoreItems op.1 op.2 s).1.itemData).map (fun it => it.id)).Nodup
        rw [hsplit, List.map_append, List.nodup_append]
        exact ⟨hnew, hnd, fun a ha hb => hdisj hb ha⟩
      · intro it hm
        replace hm : it ∈ (addMoreItems op.1 op.2 s).1.itemData := hm
        rw [hsplit, List.mem_append] at hm
        rcases hm with hm | hm
        · exact hboundNew it hm
        · exact hboundOld it hm
  exact ⟨hflag2, hc2, hids.2, hids.1⟩

/-- Helper: the initial 2000-item store satisfies the invariant. -/
theorem StoreInv_initialStore : StoreInv initialStore := by
  have hids : storeIds initialStore =
      (List.range 2000).map (fun (i : Nat) => 1 + (i : Int)) := by
    simp only [storeIds, initialStore]
    exact generateItemData_ids 2000 1 0
  have hcounter : initialStore.counter = 2000 := by
    simp only [initialStore, generateItemData_counter]
    norm_num
  refine ⟨rfl, by omega, ?_, ?_⟩
  · intro it hm
    have h1 : it.id ∈ storeIds initialStore := List.mem_map_of_mem _ hm
    rw [hids] at h1
    simp only [List.mem_map, List.mem_range] at h1
    obtain ⟨i, hi, hEq⟩ := h1
    rw [hcounter]
    omega
  · rw [hids]
    refine List.Nodup.map ?_ (List.nodup_range 2000)
    intro i j hEq
    have h2 : 1 + (i : Int) = 1 + (j : Int) := hEq
    omega

/-- Helper: the invariant holds after any sequence of appends. -/
theorem StoreInv_applyAppends (ops : List (Nat × Direction)) :
    ∀ s : Store, StoreInv s → StoreInv (applyAppends s ops) := by
  induction ops with
  | nil => exact fun s h => h
  | cons op rest ih =>
    intro s h
    exact ih _ (StoreInv_applyAppend h op)

/-- C7: starting from the initial 2000-item store and applying any
sequence of append operations, the store ids stay pairwise distinct and
bounded by the global counter, and the next append of any size and
direction assigns exactly the ids counter+1, ..., counter+count in order:
the id sequence continues from the previous maximum, strictly increasing,
with no reuse. -/
theorem C7_id_uniqueness (ops : List (Nat × Direction)) :
    (storeIds (applyAppends initialStore ops)).Nodup ∧
    (∀ it ∈ (applyAppends initialStore ops).itemData,
      1 ≤ it.id ∧ it.id ≤ (applyAppends initialStore ops).counter) ∧
    (∀ (count : Nat) (d : Direction),
      (addMoreItems count d (applyAppends initialStore ops)).2.map
          (fun it => it.id) =
        (List.range count).map (fun (i : Nat) =>
          (applyAppends initialStore ops).counter + 1 + (i : Int))) := by
  have h := StoreInv_applyAppends ops initialStore StoreInv_initialStore
  obtain ⟨hflag, hc, hbound, hnd⟩ := h
  exact ⟨hnd, hbound, fun count d => addMoreItems_new_ids count d _ hflag⟩

/-- Helper: the executable rational floor agrees with the floor of the
ordered field structure. -/
theorem ratFloor_eq_floor (q : ℚ) : q.floor = ⌊q⌋ := by
  rw [Rat.floor_def', Rat.floor_def]

/-- C4: appending 5 items to the left of a store whose minimum x is 0 and
whose computed row count is 2 leaves every pre-existing item untouched
(the new store is the new items prepended to the unchanged old list), and
gives the new items the columns -3, -2, -1, -3, -2: all strictly negative
and tiling contiguously before the old minimum column 0. -/
theorem C4_append_left_tiling (s : Store)
    (hflag : s.usingRealData = false)
    (hrows : natCeilDiv s.itemData.length GRID_COLUMNS = 2)
    (hmin : minXOf s.itemData = 0) :
    (addMoreItems 5 .left s).1.itemData =
      (addMoreItems 5 .left s).2 ++ s.itemData ∧
    (addMoreItems 5 .left s).2.map (fun it => it.column) =
      [-3, -2, -1, -3, -2] ∧
    ∀ c ∈ (addMoreItems 5 .left s).2.map (fun it => it.column), c < 0 := by
  have hcols : (addMoreItems 5 .left s).2.map (fun it => it.column) =
      [-3, -2, -1, -3, -2] := by
    simp only [addMoreItems, hflag]
    rw [if_neg (by simp)]
    dsimp only
    rw [hrows, hmin]
    rw [show natCeilDiv 5 2 = 3 from rfl]
    simp only [generateItemData]
    rw [show List.range 5 = [0, 1, 2, 3, 4] from by decide]
    simp only [List.map_cons, List.map_nil, mapWithIndex]
    simp only [ITEM_SIZE, ratFloor_eq_floor]
    norm_num
  refine ⟨?_, hcols, ?_⟩
  · simp only [addMoreItems, hflag]
    rw [if_neg (by simp)]
  · rw [hcols]
    decide

/-- C4 witness: the 51-item store with minimum x 0 satisfies every
hypothesis, and the tiling conclusion holds for it. -/
theorem C4_append_left_tiling_witness :
    w4Store.usingRealData = false ∧
    natCeilDiv w4Store.itemData.length GRID_COLUMNS = 2 ∧
    minXOf w4Store.itemData = 0 ∧
    ((addMoreItems 5 .left w4Store).1.itemData =
        (addMoreItems 5 .left w4Store).2 ++ w4Store.itemData ∧
      (addMoreItems 5 .left w4Store).2.map (fun it => it.column) =
        [-3, -2, -1, -3, -2] ∧
      ∀ c ∈ (addMoreItems 5 .left w4Store).2.map (fun it => it.column),
        c < 0) := by
  have hfold : ∀ n : Nat,
      (List.replicate n w4Item1).foldl (fun m i => min m i.x) (0 : ℚ) = 0 := by
    intro n
    induction n with
    | zero => rfl
    | succ k ih =>
      rw [List.replicate_succ, List.foldl_cons]
      rw [show min (0 : ℚ) w4Item1.x = 0 from by
        rw [show w4Item1.x = 0 from rfl, min_self]]
      exact ih
  have hmin : minXOf w4Store.itemData = 0 := by
    simp only [w4Store, w4Items, minXOf]
    rw [show w4Item0.x = (0 : ℚ) from rfl]
    exact hfold 50
  have hrows : natCeilDiv w4Store.itemData.length GRID_COLUMNS = 2 := by
    rw [show w4Store.itemData.length = 51 from by
      simp [w4Store, w4Items]]
    decide
  exact ⟨rfl, hrows, hmin, C4_append_left_tiling w4Store rfl hrows hmin⟩

/-- Helper: membership is preserved by the descending insert. -/
theorem mem_insertByDistDesc {p q : Int × ℚ} {l : List (Int × ℚ)} :
    q ∈ insertByDistDesc p l ↔ q = p ∨ q ∈ l := by
  induction l with
  | nil => simp [insertByDistDesc]
  | cons r rest ih =>
    simp only [insertByDistDesc]
    split
    · simp [List.mem_cons]
    · simp only [List.mem_cons, ih]
      tauto

/-- Helper: membership is preserved by the descending sort. -/
theorem mem_sortByDistDesc {p : Int × ℚ} {l : List (Int × ℚ)} :
    p ∈ sortByDistDesc l ↔ p ∈ l := by
  induction l with
  | nil => simp [sortByDistDesc]
  | cons r rest ih =>
    simp only [sortByDistDesc, mem_insertByDistDesc, List.mem_cons, ih]

/-- Helper: a distance entry is keyed by the id it was produced for. -/
theorem distanceEntry_fst {items : List Item} {S : List Int} {cx cy : ℚ}
    {itemId : Int} {p : Int × ℚ}
    (h : distanceEntry items S cx cy itemId = some p) : p.1 = itemId := by
  unfold distanceEntry at h
  split at h
  · exact absurd h (by simp)
  · split at h
    · exact absurd h (by simp)
    · cases h
      rfl

/-- Helper: ids 1..499 populate the selected set of the eviction
scenario. -/
theorem mem_c2VisibleIds_iff (k : Int) : k ∈ c2VisibleIds ↔ 1 ≤ k ∧ k ≤ 499 := by
  simp only [c2VisibleIds, List.mem_map, List.mem_range]
  constructor
  · rintro ⟨n, hn, rfl⟩
    omega
  · intro hk
    refine ⟨(k - 1).toNat, by omega, by omega⟩

/-- Helper: no selected item of the eviction scenario carries an id at or
above 500. -/
theorem find?_c2SelItems_eq_none (k : Int) (hk : 500 ≤ k) :
    c2SelItems.find? (fun i => i.id == k) = none := by
  rw [List.find?_eq_none]
  intro x hx
  simp only [c2SelItems, List.mem_map, List.mem_range] at hx
  obtain ⟨n, hn, rfl⟩ := hx
  simp only [selItem, beq_iff_eq]
  omega

/-- Helper: the scenario item with id 500 is measured at squared distance
2500 (pixel distance 50) from the bounds center (400, 300). -/
theorem distanceEntry_c2_500 :
    distanceEntry c2Items c2VisibleIds ((c2Bounds.left + c2Bounds.right) / 2)
      ((c2Bounds.top + c2Bounds.bottom) / 2) 500 = some (500, 2500) := by
  have hfind : c2Items.find? (fun i => i.id == (500 : Int)) = some c2Item50 := by
    simp only [c2Items]
    rw [List.find?_append, find?_c2SelItems_eq_none 500 (by norm_num)]
    simp [c2Item50]
  unfold distanceEntry
  rw [hfind]
  dsimp only
  rw [if_neg (by simp [c2Item50, List.elem_iff, mem_c2VisibleIds_iff])]
  simp only [c2Item50, c2Bounds, ITEM_SIZE, Option.some.injEq, Prod.mk.injEq]
  norm_num

/-- Helper: the scenario item with id 501 is measured at squared distance
100 (pixel distance 10). -/
theorem distanceEntry_c2_501 :
    distanceEntry c2Items c2VisibleIds ((c2Bounds.left + c2Bounds.right) / 2)
      ((c2Bounds.top + c2Bounds.bottom) / 2) 501 = some (501, 100) := by
  have hfind : c2Items.find? (fun i => i.id == (501 : Int)) = some c2Item10 := by
    simp only [c2Items]
    rw [List.find?_append, find?_c2SelItems_eq_none 501 (by norm_num)]
    simp [c2Item50, c2Item10]
  unfold distanceEntry
  rw [hfind]
  dsimp only
  rw [if_neg (by simp [c2Item10, List.elem_iff, mem_c2VisibleIds_iff])]
  simp only [c2Item10, c2Bounds, ITEM_SIZE, Option.some.injEq, Prod.mk.injEq]
  norm_num

/-- Helper: the scenario item with id 502 is measured at squared distance
900 (pixel distance 30). -/
theorem distanceEntry_c2_502 :
    distanceEntry c2Items c2VisibleIds ((c2Bounds.left + c2Bounds.right) / 2)
      ((c2Bounds.top + c2Bounds.bottom) / 2) 502 = some (502, 900) := by
  have hfind : c2Items.find? (fun i => i.id == (502 : Int)) = some c2Item30 := by
    simp only [c2Items]
    rw [List.find?_append, find?_c2SelItems_eq_none 502 (by norm_num)]
    simp [c2Item50, c2Item10, c2Item30]
  unfold distanceEntry
  rw [hfind]
  dsimp only
  rw [if_neg (by simp [c2Item30, List.elem_iff, mem_c2VisibleIds_iff])]
  simp only [c2Item30, c2Bounds, ITEM_SIZE, Option.some.injEq, Prod.mk.injEq]
  norm_num

/-- Helper: a non-member yields a false containment test. -/
theorem contains_eq_false_of_not_mem {a : Int} {l : List Int} (h : a ∉ l) :
    l.contains a = false := by
  rw [Bool.eq_false_iff]
  intro hc
  exact h (List.elem_iff.mp hc)

/-- C2: items in the selected set are never evicted by the eviction step,
whatever the registry pressure; and in the concrete scenario where the
live registry holds 499 selected ids plus three non-selected items at
pixel distances 50, 10 and 30 from the buffered-bounds center (so the cap
forces exactly two evictions), the eviction step removes exactly the items
at distances 50 and 30 and keeps the item at distance 10 together with all
selected ids. -/
theorem C2_eviction_tiebreak :
    (∀ (items : List Item) (bounds : ViewBounds) (S reg : List Int) (a : Int),
      a ∈ reg → a ∈ S → a ∈ evictStep items bounds S reg) ∧
    c2Registry.length = MAX_DOM_NODES + 2 ∧
    evictStep c2Items c2Bounds c2VisibleIds c2Registry = c2VisibleIds ++ [501] := by
  have hlen2 : c2Registry.length = 502 := by
    simp [c2Registry, c2VisibleIds]
  refine ⟨?_, ?_, ?_⟩
  · intro items bounds S reg a ha haS
    simp only [evictStep]
    split
    · rw [List.mem_filter]
      refine ⟨ha, ?_⟩
      have hno : a ∉ List.map (fun p => p.1)
          (List.take (reg.length - MAX_DOM_NODES)
            (sortByDistDesc (List.filterMap
              (distanceEntry items S ((bounds.left + bounds.right) / 2)
                ((bounds.top + bounds.bottom) / 2)) reg))) := by
        intro hmem
        obtain ⟨p, hp, hpa⟩ := List.mem_map.mp hmem
        have hp2 := List.take_subset _ _ hp
        have hp3 := mem_sortByDistDesc.mp hp2
        obtain ⟨id, hid, hde⟩ := List.mem_filterMap.mp hp3
        have hfst : p.1 = id := distanceEntry_fst hde
        have hida : id = a := by rw [← hfst, hpa]
        rw [hida, distanceEntry_eq_none haS] at hde
        exact Option.noConfusion hde
      have hno2 : a ∉ List.take (reg.length - MAX_DOM_NODES)
          (List.map (fun p => p.1)
            (sortByDistDesc (List.filterMap
              (distanceEntry items S ((bounds.left + bounds.right) / 2)
                ((bounds.top + bounds.bottom) / 2)) reg))) := by
        rw [← List.map_take]
        exact hno
      simp
      exact hno2
    · exact ha
  · rw [hlen2]
    decide
  · have h0 : List.filterMap
        (distanceEntry c2Items c2VisibleIds ((c2Bounds.left + c2Bounds.right) / 2)
          ((c2Bounds.top + c2Bounds.bottom) / 2)) c2VisibleIds = [] := by
      rw [List.filterMap_eq_nil_iff]
      intro a ha
      exact distanceEntry_eq_none ha
    have hid_list : List.filterMap
        (distanceEntry c2Items c2VisibleIds ((c2Bounds.left + c2Bounds.right) / 2)
          ((c2Bounds.top + c2Bounds.bottom) / 2)) c2Registry =
        [(500, 2500), (501, 100), (502, 900)] := by
      rw [show c2Registry = c2VisibleIds ++ [500, 501, 502] from rfl]
      rw [List.filterMap_append, h0, List.nil_append]
      simp only [List.filterMap_cons, distanceEntry_c2_500, distanceEntry_c2_501,
        distanceEntry_c2_502, List.filterMap_nil]
    have hi2 : insertByDistDesc ((501 : Int), (100 : ℚ)) [(502, 900)] =
        [(502, 900), (501, 100)] := by
      simp only [insertByDistDesc]
      rw [if_neg (by norm_num)]
    have hi3 : insertByDistDesc ((500 : Int), (2500 : ℚ))
        [(502, 900), (501, 100)] = [(500, 2500), (502, 900), (501, 100)] := by
      simp only [insertByDistDesc]
      rw [if_pos (by norm_num)]
    have hi1 : insertByDistDesc ((502 : Int), (900 : ℚ)) [] = [(502, 900)] := rfl
    have hsorted : sortByDistDesc [((500 : Int), (2500 : ℚ)), (501, 100), (502, 900)] =
        [(500, 2500), (502, 900), (501, 100)] := by
      simp only [sortByDistDesc]
      rw [hi1, hi2, hi3]
    simp only [evictStep]
    rw [if_pos (by rw [hlen2]; decide)]
    simp only [hid_list, hlen2, MAX_DOM_NODES]
    rw [show (502 : Nat) - 500 = 2 from rfl]
    simp only [hsorted]
    rw [show List.map (fun p => p.1)
        (List.take 2 [((500 : Int), (2500 : ℚ)), (502, 900), (501, 100)]) =
        [500, 502] from rfl]
    rw [show c2Registry = c2VisibleIds ++ [500, 501, 502] from rfl]
    rw [List.filter_append]
    have hl : c2VisibleIds.filter
        (fun itemId => !([(500 : Int), 502].contains itemId)) = c2VisibleIds := by
      rw [List.filter_eq_self]
      intro a ha
      have ha2 := (mem_c2VisibleIds_iff a).mp ha
      rw [contains_eq_false_of_not_mem (by
        intro hmem
        simp only [List.mem_cons, List.not_mem_nil, or_false] at hmem
        rcases hmem with hmem | hmem <;> omega)]
      rfl
    have hr : List.filter (fun itemId => !([(500 : Int), 502].contains itemId))
        [500, 501, 502] = [501] := by decide
    rw [hl, hr]

/-- C2 witness: the selected id 1 is in the scenario registry and in the
selected set, and indeed survives the eviction step. -/
theorem C2_eviction_tiebreak_witness :
    (1 : Int) ∈ c2Registry ∧ (1 : Int) ∈ c2VisibleIds ∧
    (1 : Int) ∈ evictStep c2Items c2Bounds c2VisibleIds c2Registry := by
  have h1 : (1 : Int) ∈ c2VisibleIds := (mem_c2VisibleIds_iff 1).mpr (by norm_num)
  have h2 : (1 : Int) ∈ c2Registry := by
    rw [show c2Registry = c2VisibleIds ++ [500, 501, 502] from rfl]
    exact List.mem_append_left _ h1
  exact ⟨h2, h1,
    C2_eviction_tiebreak.1 c2Items c2Bounds c2VisibleIds c2Registry 1 h2 h1⟩

/-- C7 witness: the conclusions instantiated at the empty sequence of
append operations, i.e. at the freshly initialized store. -/
theorem C7_id_uniqueness_witness :
    (storeIds (applyAppends initialStore [])).Nodup ∧
    (∀ it ∈ (applyAppends initialStore []).itemData,
      1 ≤ it.id ∧ it.id ≤ (applyAppends initialStore []).counter) ∧
    (∀ (count : Nat) (d : Direction),
      (addMoreItems count d (applyAppends initialStore [])).2.map
          (fun it => it.id) =
        (List.range count).map (fun (i : Nat) =>
          (applyAppends initialStore []).counter + 1 + (i : Int))) :=
  C7_id_uniqueness []

/-- C9 witness: the registry-equals-visible property instantiated at a
one-item store, the property-7 camera and an empty registry. -/
theorem C9_registry_equals_visible_witness :
    (∀ a : Int, a ∈ syncDOM [c8Item] c8View [] ↔
      a ∈ (findVisibleItems [c8Item] c8View).map (fun it => it.id)) ∧
    evictStep [c8Item] (calculateViewportBounds c8View)
        ((findVisibleItems [c8Item] c8View).map (fun it => it.id))
        (removeStep ((findVisibleItems [c8Item] c8View).map (fun it => it.id)) []) =
      removeStep ((findVisibleItems [c8Item] c8View).map (fun it => it.id)) [] :=
  C9_registry_equals_visible [c8Item] c8View []

end MG
